import Mathlib

set_option maxRecDepth 4000

unseal Rat.mul Rat.inv Rat.add Rat.sub Rat.ofScientific

/-!
Verification of the fort.10 reader core of the GOLP repository.

The definitions below are a shallow embedding of the two reader modules
`src/Test1/Ti_hot/density_block.py` (namespace `DB`) and
`src/Test1/Ti_hot/density_plot.py` (namespace `DP`).

Modelling conventions:
* A text stream is a `List String` of lines without their trailing newline;
  `readline` returning a falsy value (end of file) corresponds to the empty
  list.  A blank line in the file is the string `""` (truthy `"\n"` in Python).
* Python floats are modelled as rationals (`ℚ`); the structural properties
  verified here (token counts, ordering, argmin/clamping policy, exact decimal
  factors) do not depend on rounding.
* Python exceptions (`EOFError`, `ValueError`, `SystemExit`) are modelled by
  an `Except Err` result; an uncaught exception is an `.error` value.
* A few executions of the source diverge or index with negative subscripts
  (negative length codes in a section header, a record length of zero in the
  dynamic loop).  Those executions are marked by an outer `Option` layer:
  `none` means "the source does not terminate normally here".  They are
  outside every claim.
-/

deriving instance DecidableEq for Except

/-- Error kinds of the reader core (spec §7).  `configError` models the
`SystemExit` raised by `unit_factor_to_um`. -/
inductive Err
  | unexpectedEOF
  | invalidNumber
  | headerMismatch
  | noData
  | configError
  deriving DecidableEq, Repr

/-- One block of the block-ASCII dialect: `{"step": int, "time_s": float,
"data": rows}` as built by `parse_block_ascii`.  The same shape serves as the
in-progress block during accumulation. -/
structure Block where
  step : Nat
  time_s : ℚ
  rows : List (List ℚ)
  deriving DecidableEq, Repr

/-- Python `str` whitespace, the class split on by `str.split()` and stripped
by `str.strip()` (ASCII subset, which covers these data files). -/
def isPySpace (c : Char) : Bool :=
  c = ' ' || c = '\t' || c = '\n' || c = '\r' || c = '\x0b' || c = '\x0c'

/-- Word character for the regex `\b` boundary (ASCII subset of `\w`). -/
def isWordChar (c : Char) : Bool :=
  c.isAlphanum || c = '_'

/-- Python `str.strip()` on a character list. -/
def pyStripList (cs : List Char) : List Char :=
  ((cs.dropWhile isPySpace).reverse.dropWhile isPySpace).reverse

/-- Python `str.strip()`. -/
def pyStrip (s : String) : String :=
  String.mk (pyStripList s.data)

/-- Helper for `splitWs`: accumulates the current (reversed) token. -/
def splitWsAux (acc : List Char) : List Char → List String
  | [] => if acc = [] then [] else [String.mk acc.reverse]
  | c :: cs =>
    if isPySpace c then
      if acc = [] then splitWsAux [] cs
      else String.mk acc.reverse :: splitWsAux [] cs
    else splitWsAux (c :: acc) cs

/-- Python `str.split()` with no argument: split on runs of whitespace,
discarding empty tokens. -/
def splitWs (s : String) : List String :=
  splitWsAux [] s.data

/-- Python `str.lower()` (ASCII lowering; the markers compared against are
ASCII). -/
def pyLower (s : String) : String :=
  String.mk (s.data.map Char.toLower)

/-- Python substring test `pat in s` on character lists. -/
def containsSub (pat : List Char) : List Char → Bool
  | [] => pat.isEmpty
  | c :: cs => pat.isPrefixOf (c :: cs) || containsSub pat cs

/-- Numeric value of a digit string (most significant first). -/
def natOfDigits (ds : List Char) : Nat :=
  ds.foldl (fun a c => 10 * a + (c.toNat - '0'.toNat)) 0

/-- Python `int(tok)`: optional sign followed by one or more digits.
Underscore digit separators are not modelled. -/
def parseInt? (s : String) : Option Int :=
  let go : List Char → Option Int := fun cs =>
    match cs with
    | '+' :: r => if r ≠ [] ∧ r.all Char.isDigit then some (natOfDigits r) else none
    | '-' :: r => if r ≠ [] ∧ r.all Char.isDigit then some (-(natOfDigits r : Int)) else none
    | r => if r ≠ [] ∧ r.all Char.isDigit then some (natOfDigits r) else none
  go s.data

/-- Optional sign at the head of a token: returns (isNegative, rest). -/
def takeFloatSign : List Char → Bool × List Char
  | '+' :: r => (false, r)
  | '-' :: r => (true, r)
  | r => (false, r)

/-- Python `float(tok)` restricted to finite decimal literals
`[sign] (digits [. digits] | . digits) [(e|E) [sign] digits]`.
The `inf`/`nan` spellings and underscore separators are not modelled. -/
def parseFloat? (s : String) : Option ℚ :=
  let (neg, cs) := takeFloatSign s.data
  let ip := cs.takeWhile Char.isDigit
  let cs := cs.dropWhile Char.isDigit
  let (hasDot, fd, cs) :=
    match cs with
    | '.' :: r => (true, r.takeWhile Char.isDigit, r.dropWhile Char.isDigit)
    | r => (false, ([] : List Char), r)
  if ip = [] ∧ (¬ hasDot ∨ fd = []) then none
  else
    let mant : ℚ := mkRat (natOfDigits ip * 10 ^ fd.length + natOfDigits fd) (10 ^ fd.length)
    let signed : ℚ := if neg then -mant else mant
    match cs with
    | [] => some signed
    | e :: r =>
      if e = 'e' ∨ e = 'E' then
        let (eneg, r) := takeFloatSign r
        let ed := r.takeWhile Char.isDigit
        let rest := r.dropWhile Char.isDigit
        if ed = [] ∨ rest ≠ [] then none
        else
          let p : ℚ := mkRat (10 ^ natOfDigits ed) 1
          some (if eneg then signed / p else signed * p)
      else none

example : parseFloat? "1e-12" = some (mkRat 1 1000000000000) := by decide
example : parseFloat? "2.5" = some (mkRat 5 2) := by decide
example : parseFloat? "-3" = some (mkRat (-3) 1) := by decide
example : parseFloat? ".." = none := by decide
example : parseInt? "-07" = some (-7) := by decide
example : splitWs "  a  bc " = ["a", "bc"] := by decide

/-- Split a line into consecutive positional 8-character slots
(`[line[i:i+8] for i in range(0, len(line), 8)]`; in the source the line
carries its trailing newline, which the subsequent `strip()` removes, so
working on newline-free lines is equivalent). -/
def chunks8 : List Char → List (List Char)
  | [] => []
  | c1 :: c2 :: c3 :: c4 :: c5 :: c6 :: c7 :: c8 :: rest =>
    [c1, c2, c3, c4, c5, c6, c7, c8] :: chunks8 rest
  | short => [short]

/-- The 8-character name slots contributed by one line: each slot stripped,
empty slots discarded (`[c.strip() for c in chunks if c.strip()]`).
Identical in both source files (`_read_exact_names`). -/
def lineNames (l : String) : List String :=
  ((chunks8 l.data).map (fun c => pyStrip (String.mk c))).filter (fun s => s ≠ "")

example : lineNames "TIME    R" = ["TIME", "R"] := by decide

/-- Loop body of `_read_exact_names` (identical in density_block.py and
density_plot.py): accumulate stripped 8-character slots line by line until
`nfields` names are collected, then return `names[:nfields]` together with
the rest of the stream; end of file first is `EOFError`. -/
def readNamesAux (nfields : Nat) : List String → List String → Except Err (List String × List String)
  | acc, [] =>
    if nfields ≤ acc.length then .ok (acc.take nfields, []) else .error .unexpectedEOF
  | acc, l :: ls =>
    if nfields ≤ acc.length then .ok (acc.take nfields, l :: ls)
    else readNamesAux nfields (acc ++ lineNames l) ls

/-- `_read_exact_names(fp, nfields)`.  A negative field count behaves like 0
(the Python loop guard `len(names) < nfields` is immediately false and the
final negative-slice of an empty list is empty), hence the `Int.toNat`. -/
def read_exact_names (nfields : Int) (lines : List String) :
    Except Err (List String × List String) :=
  readNamesAux nfields.toNat [] lines

/-- Loop body of `_read_values` (identical in both files): whole lines are
tokenized and parsed until at least `nvals` floats are collected; the result
is `vals[:nvals]`, silently discarding any surplus tokens of the last line
consumed.  End of file first is `EOFError`; an unparsable token is
`ValueError`. -/
def readValuesAux (nvals : Nat) : List ℚ → List String → Except Err (List ℚ × List String)
  | acc, [] =>
    if nvals ≤ acc.length then .ok (acc.take nvals, []) else .error .unexpectedEOF
  | acc, l :: ls =>
    if nvals ≤ acc.length then .ok (acc.take nvals, l :: ls)
    else
      match (splitWs (pyStrip l)).mapM parseFloat? with
      | none => .error .invalidNumber
      | some xs => readValuesAux nvals (acc ++ xs) ls

/-- `_read_values(fp, nvals)` of density_block.py and density_plot.py.
A non-positive count reads nothing and returns `[]` (Python: the loop guard
is immediately false and `[][:nvals]` is `[]`). -/
def read_values (nvals : Int) (lines : List String) :
    Except Err (List ℚ × List String) :=
  readValuesAux nvals.toNat [] lines

/-- Result of the run-length compression walk of `_read_section_header`. -/
inductive CompressRes
  | items (l : List (String × Int))
  | bad
  | stuck
  deriving DecidableEq, Repr

/-- First index of the minimum of a list (`np.argmin`), helper: `b` is the
best (index, value) seen so far, `i` the index of the head of the remaining
list; ties keep the earlier index. -/
def argminAux (b : Nat × ℚ) (i : Nat) : List ℚ → Nat
  | [] => b.1
  | x :: xs => if x < b.2 then argminAux (i, x) (i + 1) xs else argminAux b (i + 1) xs

/-- `int(np.abs(...).argmin())`: index of the first minimal element. -/
def argminList : List ℚ → Nat
  | [] => 0
  | x :: xs => argminAux (0, x) 1 xs

example : argminList [3, 1, 5, 1] = 1 := by decide

/-- Total scalar slot count of a directory:
`sum(1 if L == 0 else L for _, L in items)`. -/
def totalValues (items : List (String × Int)) : Int :=
  (items.map (fun it => if it.2 = 0 then (1 : Int) else it.2)).sum

/-- Directory returned by `_read_section_header`: the compressed items and
`total_values`. -/
structure Header where
  items : List (String × Int)
  total_values : Int
  deriving DecidableEq, Repr

namespace DB

/-!  Embedding of `src/Test1/Ti_hot/density_block.py`. -/

/-- Loop body of `_read_exact_ints`: each line is stripped, commas are
replaced by spaces, and every whitespace token is parsed with `int`. -/
def readIntsAux (nfields : Nat) : List Int → List String → Except Err (List Int × List String)
  | acc, [] =>
    if nfields ≤ acc.length then .ok (acc.take nfields, []) else .error .unexpectedEOF
  | acc, l :: ls =>
    if nfields ≤ acc.length then .ok (acc.take nfields, l :: ls)
    else
      let toks := splitWs (String.mk ((pyStrip l).data.map (fun c => if c = ',' then ' ' else c)))
      match toks.mapM parseInt? with
      | none => .error .invalidNumber
      | some xs => readIntsAux nfields (acc ++ xs) ls

/-- `_read_exact_ints(fp, nfields)` of density_block.py. -/
def read_exact_ints (nfields : Int) (lines : List String) :
    Except Err (List Int × List String) :=
  readIntsAux nfields.toNat [] lines

/-- The run-length compression walk of `_read_section_header`
(density_block.py lines 129-139), phrased on the suffix starting at the
cursor `i` (the source keeps absolute indices into lists of equal length;
`names.drop i` / `lens.drop i` carry the same information).  `.bad` is the
`ok = False` exit taken when a nonzero-length run fails its consistency
check (including `j > n_tokens`).  `.stuck` covers the executions not
modelled: fuel exhaustion, a negative length code (which makes the source
walk step backwards and in general re-process entries forever), and
unequal list lengths (unreachable: both lists have exactly `n_tokens`
entries). -/
def compressAux : Nat → List String → List Int → CompressRes
  | 0, _, _ => .stuck
  | _ + 1, [], _ => .items []
  | _ + 1, _ :: _, [] => .stuck
  | fuel + 1, name :: ns, L :: ls =>
    if L = 0 then
      match compressAux fuel ns ls with
      | .items l => .items ((name, 0) :: l)
      | r => r
    else if L < 0 then .stuck
    else if L.toNat ≤ (name :: ns).length
            ∧ (∀ x ∈ (name :: ns).take L.toNat, x = name)
            ∧ (∀ v ∈ (L :: ls).take L.toNat, v = L) then
      match compressAux fuel ((name :: ns).drop L.toNat) ((L :: ls).drop L.toNat) with
      | .items l => .items ((name, L) :: l)
      | r => r
    else .bad

/-- Items produced by `_read_section_header` of density_block.py from the
parallel name/length lists: the compression walk, falling back to one item
per `(name, length)` pair (`items = [(n, L) for n, L in zip(names, lens)]`)
when the walk flagged an inconsistent run. -/
def headerItems (names : List String) (lens : List Int) : Option (List (String × Int)) :=
  match compressAux (names.length + 1) names lens with
  | .items l => some l
  | .bad => some (names.zip lens)
  | .stuck => none

/-- `_read_section_header(fp)` of density_block.py: read the element count
from the first token of the next line, collect that many packed names and
integers, check the two lists have equal length, then compress. -/
def read_section_header (lines : List String) :
    Option (Except Err (Header × List String)) :=
  match lines with
  | [] => some (.error .unexpectedEOF)
  | l :: rest =>
    match splitWs (pyStrip l) with
    | [] => some (.error .headerMismatch)
    | tok :: _ =>
      match parseInt? tok with
      | none => some (.error .invalidNumber)
      | some n =>
        match read_exact_names n rest with
        | .error e => some (.error e)
        | .ok (names, rest2) =>
          match read_exact_ints n rest2 with
          | .error e => some (.error e)
          | .ok (lens, rest3) =>
            if names.length ≠ lens.length then some (.error .headerMismatch)
            else
              match headerItems names lens with
              | none => none
              | some items => some (.ok (⟨items, totalValues items⟩, rest3))

end DB

namespace DP

/-!  Embedding of `src/Test1/Ti_hot/density_plot.py`. -/

/-- Loop body of `_read_exact_ints` of density_plot.py: tokens are
whitespace-split, then each token is stripped and trailing commas removed;
empty results are skipped, the rest parsed with `int`. -/
def readIntsAux (nfields : Nat) : List Int → List String → Except Err (List Int × List String)
  | acc, [] =>
    if nfields ≤ acc.length then .ok (acc.take nfields, []) else .error .unexpectedEOF
  | acc, l :: ls =>
    if nfields ≤ acc.length then .ok (acc.take nfields, l :: ls)
    else
      let toks := ((splitWs (pyStrip l)).map
          (fun t => String.mk (((pyStrip t).data.reverse.dropWhile (· = ',')).reverse))).filter
          (fun t => t ≠ "")
      match toks.mapM parseInt? with
      | none => .error .invalidNumber
      | some xs => readIntsAux nfields (acc ++ xs) ls

/-- `_read_exact_ints(fp, nfields)` of density_plot.py. -/
def read_exact_ints (nfields : Int) (lines : List String) :
    Except Err (List Int × List String) :=
  readIntsAux nfields.toNat [] lines

/-- The run-length walk of `_read_section_header` (density_plot.py lines
61-74).  Unlike density_block.py there is no fallback: a run whose end
exceeds the field count raises `ValueError("... run exceeds field count")`
and an inconsistent run raises `ValueError("Malformed array descriptor")`;
both are modelled as `Err.headerMismatch`.  `none` covers the executions
not modelled (fuel exhaustion, negative length codes, unequal list
lengths), as in `DB.compressAux`. -/
def compressAux : Nat → List String → List Int → Option (Except Err (List (String × Int)))
  | 0, _, _ => none
  | _ + 1, [], _ => some (.ok [])
  | _ + 1, _ :: _, [] => none
  | fuel + 1, name :: ns, L :: ls =>
    if L = 0 then
      match compressAux fuel ns ls with
      | some (.ok l) => some (.ok ((name, 0) :: l))
      | r => r
    else if L < 0 then none
    else if ¬ L.toNat ≤ (name :: ns).length then some (.error .headerMismatch)
    else if (∃ x ∈ (name :: ns).take L.toNat, x ≠ name)
            ∨ (∃ v ∈ (L :: ls).take L.toNat, v ≠ L) then some (.error .headerMismatch)
    else
      match compressAux fuel ((name :: ns).drop L.toNat) ((L :: ls).drop L.toNat) with
      | some (.ok l) => some (.ok ((name, L) :: l))
      | r => r

/-- Items produced by `_read_section_header` of density_plot.py. -/
def headerItems (names : List String) (lens : List Int) :
    Option (Except Err (List (String × Int))) :=
  compressAux (names.length + 1) names lens

/-- `_read_section_header(fp)` of density_plot.py. -/
def read_section_header (lines : List String) :
    Option (Except Err (Header × List String)) :=
  match lines with
  | [] => some (.error .unexpectedEOF)
  | l :: rest =>
    match splitWs (pyStrip l) with
    | [] => some (.error .headerMismatch)
    | tok :: _ =>
      match parseInt? tok with
      | none => some (.error .invalidNumber)
      | some n =>
        match read_exact_names n rest with
        | .error e => some (.error e)
        | .ok (names, rest2) =>
          match read_exact_ints n rest2 with
          | .error e => some (.error e)
          | .ok (lens, rest3) =>
            if names.length ≠ lens.length then some (.error .headerMismatch)
            else
              match headerItems names lens with
              | none => none
              | some (.error e) => some (.error e)
              | some (.ok items) => some (.ok (⟨items, totalValues items⟩, rest3))

end DP

/-- Loop body of the dynamic-frame loop of `read_classic_fort10`
(density_block.py lines 164-178) and `read_fort10_dynamic` (density_plot.py
lines 115-131), identical in both: peek one line (end of file breaks the
loop cleanly), rewind, then decode one full record of `recN` values; an
`EOFError` raised by `_read_values` mid-record is caught and also breaks
the loop, keeping only the frames accumulated so far, while a `ValueError`
propagates.  The fuel argument dominates the number of iterations; a record
length of zero makes the source loop forever re-reading the same position,
which the model maps to `none`. -/
def readFramesAux (recN : Nat) : Nat → List String → Option (Except Err (List (List ℚ)))
  | 0, _ => none
  | _ + 1, [] => some (.ok [])
  | fuel + 1, l :: ls =>
    match readValuesAux recN [] (l :: ls) with
    | .error .unexpectedEOF => some (.ok [])
    | .error e => some (.error e)
    | .ok (vals, rest) =>
      match readFramesAux recN fuel rest with
      | none => none
      | some (.error e) => some (.error e)
      | some (.ok frames) => some (.ok (vals :: frames))

/-- The dynamic-frame loop, with enough fuel for every terminating
execution (each iteration consumes at least one line when `recN ≥ 1`). -/
def readFrames (recN : Nat) (lines : List String) : Option (Except Err (List (List ℚ))) :=
  readFramesAux recN (lines.length + 1) lines

namespace DB

/-- `_skip_static(fp)` of density_block.py: one section header plus one
record, both discarded except for the stream position. -/
def skip_static (lines : List String) : Option (Except Err (List String)) :=
  match read_section_header lines with
  | none => none
  | some (.error e) => some (.error e)
  | some (.ok (meta, rest)) =>
    match read_values meta.total_values rest with
    | .error e => some (.error e)
    | .ok (_, rest2) => some (.ok rest2)

/-- `read_classic_fort10(path)` of density_block.py: skip the static
section, read the dynamic section header, then stream whole records until
end of file.  The source finally re-groups the flat records into a
per-variable dict (scalar slots vs `count`-length slices, appended frame by
frame); that regrouping is pure bookkeeping over the two components
returned here, and no claim depends on it. -/
def read_classic_fort10 (lines : List String) :
    Option (Except Err (Header × List (List ℚ))) :=
  match skip_static lines with
  | none => none
  | some (.error e) => some (.error e)
  | some (.ok rest) =>
    match read_section_header rest with
    | none => none
    | some (.error e) => some (.error e)
    | some (.ok (dyn, rest2)) =>
      match readFrames dyn.total_values.toNat rest2 with
      | none => none
      | some (.error e) => some (.error e)
      | some (.ok frames) => some (.ok (dyn, frames))

end DB

namespace DP

/-- `_skip_static_section(fp)` of density_plot.py. -/
def skip_static_section (lines : List String) : Option (Except Err (List String)) :=
  match read_section_header lines with
  | none => none
  | some (.error e) => some (.error e)
  | some (.ok (meta, rest)) =>
    match read_values meta.total_values rest with
    | .error e => some (.error e)
    | .ok (_, rest2) => some (.ok rest2)

/-- `read_fort10_dynamic(path)` of density_plot.py (same orchestration as
`DB.read_classic_fort10`, using this file's section-header reader). -/
def read_fort10_dynamic (lines : List String) :
    Option (Except Err (Header × List (List ℚ))) :=
  match skip_static_section lines with
  | none => none
  | some (.error e) => some (.error e)
  | some (.ok rest) =>
    match read_section_header rest with
    | none => none
    | some (.error e) => some (.error e)
    | some (.ok (dyn, rest2)) =>
      match readFrames dyn.total_values.toNat rest2 with
      | none => none
      | some (.error e) => some (.error e)
      | some (.ok frames) => some (.ok (dyn, frames))

end DP

namespace DB

/-- Case-insensitive literal match: `pat` is given lowercase; consumes it
from the input and returns the rest. -/
def matchLit : List Char → List Char → Option (List Char)
  | [], cs => some cs
  | _ :: _, [] => none
  | p :: ps, c :: cs => if c.toLower = p then matchLit ps cs else none

/-- Attempt of `BLOCK_START_RE` — the IGNORECASE pattern
`\bstep\s*=\s*(\d+)\s+time\s*=\s*([Ee0-9\+\-\.]+)` — anchored at the
current position; `prev` is the character before that position (for the
`\b` boundary).  Each greedy sub-pattern is followed by a disjoint
character class, so maximal munch is exact.  Returns the two capture
groups: the step digits' value and the raw time token. -/
def blockStartAt (prev : Option Char) (cs : List Char) : Option (Nat × String) := do
  match prev with
  | some p => if isWordChar p then none else pure ()
  | none => pure ()
  let cs ← matchLit ['s', 't', 'e', 'p'] cs
  let cs := cs.dropWhile isPySpace
  let cs ← match cs with | '=' :: r => some r | _ => none
  let cs := cs.dropWhile isPySpace
  let ds := cs.takeWhile Char.isDigit
  if ds = [] then none else
  let cs := cs.dropWhile Char.isDigit
  let sp := cs.takeWhile isPySpace
  if sp = [] then none else
  let cs := cs.dropWhile isPySpace
  let cs ← matchLit ['t', 'i', 'm', 'e'] cs
  let cs := cs.dropWhile isPySpace
  let cs ← match cs with | '=' :: r => some r | _ => none
  let cs := cs.dropWhile isPySpace
  let isTimeChar : Char → Bool := fun c =>
    c.isDigit || c = 'e' || c = 'E' || c = '+' || c = '-' || c = '.'
  let ts := cs.takeWhile isTimeChar
  if ts = [] then none else
  some (natOfDigits ds, String.mk ts)

/-- Helper for `BLOCK_START_RE.search`: try every start position from left
to right, threading the previous character for the `\b` boundary. -/
def blockStartSearchAux (prev : Option Char) : List Char → Option (Nat × String)
  | [] => none
  | c :: cs =>
    match blockStartAt prev (c :: cs) with
    | some r => some r
    | none => blockStartSearchAux (some c) cs

/-- `BLOCK_START_RE.search(raw)`: leftmost match of the step/time marker. -/
def blockStartSearch (raw : String) : Option (Nat × String) :=
  blockStartSearchAux none raw.data

example : blockStartSearch "step=1 time=1e-12" = some (1, "1e-12") := by decide
example : blockStartSearch " STEP = 12  TIME = 2.5E+1 xx" = some (12, "2.5E+1") := by decide
example : blockStartSearch "1 2 3 4 5 6 7" = none := by decide
example : blockStartSearch "mystep=1 time=2" = none := by decide

/-- Core of `HEADER_RE` — `i\s+x\s+v\s+rho\s+te\s+ti\s+depo`, IGNORECASE —
anchored at the current position (the pattern's leading `\s*` is subsumed
by searching every start position). -/
def headerCoreAt (cs : List Char) : Bool :=
  (do
    let step : List Char → List Char → Option (List Char) := fun w cs => do
      let cs ← matchLit w cs
      let sp := cs.takeWhile isPySpace
      if sp = [] then none else some (cs.dropWhile isPySpace)
    let cs ← step ['i'] cs
    let cs ← step ['x'] cs
    let cs ← step ['v'] cs
    let cs ← step ['r', 'h', 'o'] cs
    let cs ← step ['t', 'e'] cs
    let cs ← step ['t', 'i'] cs
    let _ ← matchLit ['d', 'e', 'p', 'o'] cs
    some ()).isSome

/-- `HEADER_RE.search(raw)`: does the column-label pattern match anywhere? -/
def headerSearch (raw : String) : Bool :=
  (List.range (raw.data.length + 1)).any (fun i => headerCoreAt (raw.data.drop i))

example : headerSearch "  i x v rho te ti depo" = true := by decide
example : headerSearch "1 2 3 4 5 6 7" = false := by decide

/-- Flush of the in-progress block (`if cur and cur.get("rows")`): append it
to the output sequence only when it holds at least one row. -/
def flushCur (blocks : List Block) (cur : Option Block) : List Block :=
  match cur with
  | some b => if b.rows ≠ [] then blocks ++ [b] else blocks
  | none => blocks

/-- One iteration of the `for raw in stream` loop of `parse_block_ascii`
(density_block.py lines 54-78), transforming the state
`(blocks, cur)`.  A marker line flushes and opens a fresh block (an
unparsable time token is the uncaught `ValueError` from `float`); with no
block open the line is skipped; a column-label line is skipped; a line
with exactly 7 float tokens is appended as a row (the dead integer-check
on lines 70-72 of the source has no effect); any other line — wrong token
count, or a `ValueError` from `float` — is skipped. -/
def pbLine (st : List Block × Option Block) (line : String) :
    Except Err (List Block × Option Block) :=
  match blockStartSearch line with
  | some (stepN, timeTok) =>
    match parseFloat? timeTok with
    | none => .error .invalidNumber
    | some t => .ok (flushCur st.1 st.2, some ⟨stepN, t, []⟩)
  | none =>
    match st.2 with
    | none => .ok st
    | some b =>
      if headerSearch line then .ok st
      else
        let parts := splitWs (pyStrip line)
        if parts.length = 7 then
          match parts.mapM parseFloat? with
          | some row => .ok (st.1, some { b with rows := b.rows ++ [row] })
          | none => .ok st
        else .ok st

/-- `parse_block_ascii(stream)` of density_block.py: fold the loop body
over all lines, flush a non-empty in-progress block at end of stream, and
raise `ValueError("No block-ascii data found")` — modelled `Err.noData` —
if no block was produced. -/
def parse_block_ascii (lines : List String) : Except Err (List Block) := do
  let (blocks, cur) ← lines.foldlM pbLine ([], none)
  let blocks := flushCur blocks cur
  if blocks = [] then .error .noData else pure blocks

/-- `pick_block(blocks, frame, time_ps)` of density_block.py.  On an empty
sequence the source indexes or reduces an empty array and crashes; that
case is `none` and outside every claim.  `np.clip(f, 0, len-1)` is
`min (max f 0) (len-1)` (the bounds satisfy `0 ≤ len-1`), `argmin` returns
the first index of the minimum, and `1e-12` is exactly `mkRat 1 10^12` in
the rational model. -/
def pick_block (blocks : List Block) (frame : Option Int) (time_ps : Option ℚ) :
    Option (Block × Nat) :=
  match blocks with
  | [] => none
  | _ =>
    match frame with
    | some f =>
      let i := (min (max f 0) ((blocks.length : Int) - 1)).toNat
      some (blocks.getD i ⟨0, 0, []⟩, i)
    | none =>
      match time_ps with
      | some tps =>
        let target := tps * mkRat 1 1000000000000
        let i := argminList (blocks.map (fun b => |b.time_s - target|))
        some (blocks.getD i ⟨0, 0, []⟩, i)
      | none => some (blocks.getD (blocks.length - 1) ⟨0, 0, []⟩, blocks.length - 1)

/-- `is_block_ascii_head(sample)` of density_block.py. -/
def is_block_ascii_head (sample : String) : Bool :=
  (containsSub "step=".data (pyLower sample).data
    && containsSub "time=".data (pyLower sample).data)
  || containsSub "ascii_ouput".data (pyLower sample).data

/-- `unit_factor_to_um(xunit)` of density_block.py; the `raise SystemExit`
for an unknown unit is `Err.configError`.  The factors are `1e4`, `1e6`
and `1.0`. -/
def unit_factor_to_um (xunit : String) : Except Err ℚ :=
  let u := pyLower xunit
  if u = "cm" then .ok (mkRat 10000 1)
  else if u = "m" ∨ u = "meter" ∨ u = "meters" then .ok (mkRat 1000000 1)
  else if u = "um" ∨ u = "µm" ∨ u = "micron" ∨ u = "microns" then .ok (mkRat 1 1)
  else .error .configError

/-- The spec's `convertLength(values, unit)`: `unit_factor_to_um` composed
with the elementwise multiplication performed at its call site
(`x_um = x * unit_factor_to_um(args.xunit)`, density_block.py line 218). -/
def convertLength (values : List ℚ) (xunit : String) : Except Err (List ℚ) :=
  match unit_factor_to_um xunit with
  | .error e => .error e
  | .ok f => .ok (values.map (· * f))

end DB

/-! ### Theorems -/

lemma isPrefixOf_iff (p : List Char) : ∀ l : List Char,
    p.isPrefixOf l = true ↔ ∃ t, p ++ t = l := by
  induction p with
  | nil => intro l; simp [List.isPrefixOf]
  | cons a p ih =>
    intro l
    cases l with
    | nil => simp [List.isPrefixOf]
    | cons b l =>
      simp only [List.isPrefixOf, Bool.and_eq_true, beq_iff_eq, ih, List.cons_append,
        List.cons.injEq]
      constructor
      · rintro ⟨rfl, t, rfl⟩; exact ⟨t, rfl, rfl⟩
      · rintro ⟨t, rfl, rfl⟩; exact ⟨rfl, t, rfl⟩

lemma containsSub_iff (pat : List Char) : ∀ cs : List Char,
    containsSub pat cs = true ↔ ∃ t u, t ++ pat ++ u = cs := by
  intro cs
  induction cs with
  | nil =>
    simp only [containsSub, List.isEmpty_iff]
    constructor
    · rintro rfl; exact ⟨[], [], rfl⟩
    · rintro ⟨t, u, h⟩
      rcases List.append_eq_nil.mp h with ⟨h1, rfl⟩
      exact (List.append_eq_nil.mp h1).2
  | cons c cs ih =>
    simp only [containsSub, Bool.or_eq_true, isPrefixOf_iff, ih]
    constructor
    · rintro (⟨t, ht⟩ | ⟨t, u, rfl⟩)
      · exact ⟨[], t, by simpa using ht⟩
      · exact ⟨c :: t, u, rfl⟩
    · rintro ⟨t, u, h⟩
      cases t with
      | nil => exact Or.inl ⟨u, by simpa using h⟩
      | cons t0 ts =>
        rcases h with h
        simp only [List.cons_append, List.cons.injEq] at h
        exact Or.inr ⟨ts, u, h.2⟩

/-- C4 (amended).  The format detector `is_block_ascii_head` returns Block
(`true`) if and only if the lowercased sample contains both the `"step="`
and `"time="` marker substrings, or contains the `"ascii_ouput"` tag; in
every other case it returns Classic (`false`), and being a total Boolean
function it never raises. -/
theorem c4_detector (s : String) :
    DB.is_block_ascii_head s = true ↔
      ((∃ t u, t ++ "step=".data ++ u = (pyLower s).data)
        ∧ (∃ t u, t ++ "time=".data ++ u = (pyLower s).data))
      ∨ (∃ t u, t ++ "ascii_ouput".data ++ u = (pyLower s).data) := by
  simp only [DB.is_block_ascii_head, Bool.or_eq_true, Bool.and_eq_true, containsSub_iff]

/-- C4 counterexample.  The sample `"ascii_ouput"` contains neither the
`"step="` nor the `"time="` marker, yet the detector selects Block — the
claim's "returns Classic otherwise" is false on the code. -/
theorem c4_ascii_ouput_counterexample :
    DB.is_block_ascii_head "ascii_ouput" = true
  ∧ containsSub "step=".data (pyLower "ascii_ouput").data = false
  ∧ containsSub "time=".data (pyLower "ascii_ouput").data = false := by decide

/-- C9 (amended).  `unit_factor_to_um` lowercases its argument and maps the
supported spellings cm ↦ 1e4, m/meter/meters ↦ 1e6, um/µm/micron/microns ↦
1.0; every string outside that set fails with `ConfigError` (a `SystemExit`
in the source) and yields no value.  `convertLength` multiplies every value
by the factor, so `[1.0]` becomes exactly `[1e4]` for `"cm"`, `[1e6]` for
`"m"` and stays `[1.0]` for the micrometre spellings, while `"ft"` fails. -/
theorem c9_unit_conversion :
    (∀ u : String,
        pyLower u ∉ (["cm", "m", "meter", "meters", "um", "µm", "micron", "microns"] : List String) →
        DB.unit_factor_to_um u = .error .configError)
  ∧ (∀ (vs : List ℚ) (u : String) (f : ℚ), DB.unit_factor_to_um u = .ok f →
        DB.convertLength vs u = .ok (vs.map (· * f)))
  ∧ DB.convertLength [mkRat 1 1] "cm" = .ok [mkRat 10000 1]
  ∧ DB.convertLength [mkRat 1 1] "m" = .ok [mkRat 1000000 1]
  ∧ DB.convertLength [mkRat 1 1] "um" = .ok [mkRat 1 1]
  ∧ DB.convertLength [mkRat 1 1] "µm" = .ok [mkRat 1 1]
  ∧ DB.convertLength [mkRat 1 1] "micron" = .ok [mkRat 1 1]
  ∧ DB.unit_factor_to_um "ft" = .error Err.configError := by
  refine ⟨?_, ?_, by decide, by decide, by decide, by decide, by decide, by decide⟩
  · intro u hu
    simp only [List.mem_cons, List.not_mem_nil, or_false] at hu
    push_neg at hu
    obtain ⟨h1, h2, h3, h4, h5, h6, h7, h8⟩ := hu
    simp [DB.unit_factor_to_um, h1, h2, h3, h4, h5, h6, h7, h8]
  · intro vs u f h
    simp [DB.convertLength, h]

/-- C9 witness: the general unsupported-unit clause applied to `"ft"`. -/
theorem c9_unit_conversion_witness :
    pyLower "ft" ∉ (["cm", "m", "meter", "meters", "um", "µm", "micron", "microns"] : List String)
  ∧ DB.unit_factor_to_um "ft" = .error .configError :=
  ⟨by decide, c9_unit_conversion.1 "ft" (by decide)⟩

/-- C9 counterexample.  `"meters"` lies outside the claim's supported set
`{cm, m, um, µm, micron}`, yet the code accepts it and returns the factor
1e6 instead of failing with `ConfigError`. -/
theorem c9_meters_counterexample :
    ("meters" : String) ∉ (["cm", "m", "um", "µm", "micron"] : List String)
  ∧ DB.unit_factor_to_um "meters" = .ok (mkRat 1000000 1) := by decide

lemma readValuesAux_ok : ∀ (lines : List String) (n : Nat) (acc vals : List ℚ)
    (rest : List String), readValuesAux n acc lines = .ok (vals, rest) →
    vals.length = n ∧ ∃ k, rest = lines.drop k := by
  intro lines
  induction lines with
  | nil =>
    intro n acc vals rest h
    simp only [readValuesAux] at h
    split at h
    · next hle =>
      cases h
      exact ⟨by simp [List.length_take, Nat.min_eq_left hle], 0, rfl⟩
    · cases h
  | cons l ls ih =>
    intro n acc vals rest h
    simp only [readValuesAux] at h
    split at h
    · next hle =>
      cases h
      exact ⟨by simp [List.length_take, Nat.min_eq_left hle], 0, rfl⟩
    · next hlt =>
      cases hm : (splitWs (pyStrip l)).mapM parseFloat? with
      | none => rw [hm] at h; cases h
      | some xs =>
        rw [hm] at h
        obtain ⟨h1, k, hk⟩ := ih n (acc ++ xs) vals rest h
        exact ⟨h1, k + 1, by simpa using hk⟩

/-- C7 (amended).  `_read_values` consumes whole lines until at least
`totalScalarSlots` whitespace tokens have been parsed and returns exactly
that many values, so a record may span several lines; but the stream
position it leaves behind is always a whole-line suffix of the input —
surplus tokens on the last consumed line are discarded (`vals[:nvals]`),
so the next record resumes at the start of the next line, not mid-line,
and a value lying between two records on a shared line is lost (see the
counterexample). -/
theorem c7_read_values :
    (∀ (n : Int) (lines : List String) (vals : List ℚ) (rest : List String),
        read_values n lines = .ok (vals, rest) →
        vals.length = n.toNat ∧ ∃ k, rest = lines.drop k)
  ∧ read_values 5 ["1 2", "3", "4 5 6"] = .ok ([1, 2, 3, 4, 5], [])
  ∧ read_values 2 ["1 2 3", "4 5"] = .ok ([1, 2], ["4 5"]) := by
  refine ⟨?_, by decide, by decide⟩
  intro n lines vals rest h
  exact readValuesAux_ok lines n.toNat [] vals rest h

/-- C7 witness: the general clause at a concrete record. -/
theorem c7_read_values_witness :
    read_values 2 ["1 2 3"] = .ok ([1, 2], [])
  ∧ ([1, 2] : List ℚ).length = (2 : Int).toNat :=
  ⟨by decide, (c7_read_values.1 2 ["1 2 3"] [1, 2] [] (by decide)).1⟩

/-- C7 counterexample.  Two consecutive records of 2 values over the lines
`"1 2 3"` and `"4 5"`: the first record returns `[1, 2]` and leaves the
stream at the *next line*, so the token `3` belongs to neither record —
the claim's "no value belonging to the stream between consecutive records
is lost" is false on the code. -/
theorem c7_lost_token_counterexample :
    read_values 2 ["1 2 3", "4 5"] = .ok ([1, 2], ["4 5"])
  ∧ read_values 2 ["4 5"] = .ok ([4, 5], [])
  ∧ (3 : ℚ) ∉ ([1, 2] : List ℚ) ∧ (3 : ℚ) ∉ ([4, 5] : List ℚ) := by decide

lemma readFramesAux_no_eof (recN : Nat) : ∀ (fuel : Nat) (lines : List String),
    readFramesAux recN fuel lines ≠ some (.error .unexpectedEOF) := by
  intro fuel
  induction fuel with
  | zero => intro lines; simp [readFramesAux]
  | succ fuel ih =>
    intro lines
    cases lines with
    | nil => simp [readFramesAux]
    | cons l ls =>
      simp only [readFramesAux]
      cases h : readValuesAux recN [] (l :: ls) with
      | error e => cases e <;> simp
      | ok p =>
        obtain ⟨vals, rest⟩ := p
        cases hr : readFramesAux recN fuel rest with
        | none => simp [hr]
        | some r =>
          cases r with
          | error e =>
            simp only [hr]
            have hne := ih rest
            rw [hr] at hne
            simpa using hne
          | ok frames => simp [hr]

/-- C1 (amended).  In the dynamic-frame loop of `read_classic_fort10` /
`read_fort10_dynamic`, end of stream exactly at a frame boundary stops the
loop cleanly with the frames accumulated so far; end of stream strictly
inside a frame does *not* propagate `FormatError(UnexpectedEOF)` — the
`EOFError` raised by `_read_values` is caught and the loop also stops
cleanly, returning the accumulated complete frames and discarding the
partial one.  The loop can never surface `UnexpectedEOF`. -/
theorem c1_classic_eof_behavior :
    (∀ (recN fuel : Nat) (lines : List String),
        readFramesAux recN fuel lines ≠ some (.error .unexpectedEOF))
  ∧ DB.read_classic_fort10
      ["1", "X", "0", "7", "2", "TIME    R", "0 0", "1 10", "2 20"] =
      some (.ok (⟨[("TIME", 0), ("R", 0)], 2⟩, [[1, 10], [2, 20]]))
  ∧ DP.read_fort10_dynamic
      ["1", "X", "0", "7", "2", "TIME    R", "0 0", "1 10", "2 20", "3"] =
      some (.ok (⟨[("TIME", 0), ("R", 0)], 2⟩, [[1, 10], [2, 20]])) :=
  ⟨fun recN => readFramesAux_no_eof recN, by decide, by decide⟩

/-- C1 counterexample.  A classic file whose stream ends strictly inside
the third frame (only 1 of the record's 2 values present): the reader
returns the two complete frames as a successful result instead of failing
with `FormatError(UnexpectedEOF)` as the claim requires. -/
theorem c1_midframe_counterexample :
    DB.read_classic_fort10
      ["1", "X", "0", "7", "2", "TIME    R", "0 0", "1 10", "2 20", "3"] =
      some (.ok (⟨[("TIME", 0), ("R", 0)], 2⟩, [[1, 10], [2, 20]])) := by decide

lemma flushCur_forall {P : Block → Prop} {blocks : List Block} {cur : Option Block}
    (h : ∀ b ∈ blocks, P b) (hc : ∀ b, cur = some b → b.rows ≠ [] → P b) :
    ∀ b ∈ DB.flushCur blocks cur, P b := by
  cases cur with
  | none => simpa [DB.flushCur] using h
  | some c =>
    simp only [DB.flushCur]
    split
    · next hne =>
      intro b hb
      rcases List.mem_append.mp hb with hb | hb
      · exact h b hb
      · rcases List.mem_singleton.mp hb with rfl
        exact hc b rfl hne
    · exact h

lemma pbLine_rows_invariant (st : List Block × Option Block) (line : String)
    (h : ∀ b ∈ st.1, b.rows ≠ []) :
    ∀ st', DB.pbLine st line = .ok st' → ∀ b ∈ st'.1, b.rows ≠ [] := by
  intro st' hst'
  unfold DB.pbLine at hst'
  cases hbs : DB.blockStartSearch line with
  | some p =>
    obtain ⟨stepN, timeTok⟩ := p
    simp only [hbs] at hst'
    cases hp : parseFloat? timeTok with
    | none => simp [hp] at hst'
    | some t =>
      simp only [hp, Except.ok.injEq] at hst'
      subst hst'
      exact flushCur_forall h (fun b _ hb => hb)
  | none =>
    simp only [hbs] at hst'
    cases hcur : st.2 with
    | none =>
      simp only [hcur, Except.ok.injEq] at hst'
      subst hst'
      exact h
    | some b0 =>
      simp only [hcur] at hst'
      by_cases hh : DB.headerSearch line = true
      · simp only [hh, if_true, Except.ok.injEq] at hst'
        subst hst'
        exact h
      · simp only [Bool.not_eq_true] at hh
        simp only [hh, Bool.false_eq_true, if_false] at hst'
        by_cases hl : (splitWs (pyStrip line)).length = 7
        · simp only [hl, if_true] at hst'
          cases hm : (splitWs (pyStrip line)).mapM parseFloat? with
          | none =>
            simp only [hm, Except.ok.injEq] at hst'
            subst hst'
            exact h
          | some row =>
            simp only [hm, Except.ok.injEq] at hst'
            subst hst'
            exact h
        · simp only [hl, if_false, Except.ok.injEq] at hst'
          subst hst'
          exact h

lemma foldlM_pbLine_invariant : ∀ (lines : List String) (st : List Block × Option Block),
    (∀ b ∈ st.1, b.rows ≠ []) →
    ∀ res, lines.foldlM DB.pbLine st = .ok res → ∀ b ∈ res.1, b.rows ≠ [] := by
  intro lines
  induction lines with
  | nil =>
    intro st h res hres
    cases hres
    exact h
  | cons l ls ih =>
    intro st h res hres
    rw [List.foldlM_cons] at hres
    cases hst' : DB.pbLine st l with
    | error e => rw [hst'] at hres; cases hres
    | ok st' =>
      rw [hst'] at hres
      exact ih st' (pbLine_rows_invariant st l h st' hst') res hres

lemma parse_block_ascii_ok : ∀ (lines : List String) (bs : List Block),
    DB.parse_block_ascii lines = .ok bs →
    bs ≠ [] ∧ ∀ b ∈ bs, b.rows ≠ [] := by
  intro lines bs h
  simp only [DB.parse_block_ascii, bind, Except.bind] at h
  cases hf : lines.foldlM DB.pbLine ([], none) with
  | error e => rw [hf] at h; cases h
  | ok st =>
    obtain ⟨blocks, cur⟩ := st
    rw [hf] at h
    simp only at h
    split at h
    · cases h
    · next hne =>
      cases h
      refine ⟨hne, ?_⟩
      have hinv := foldlM_pbLine_invariant lines ([], none) (by simp) (blocks, cur) hf
      exact flushCur_forall hinv (fun b _ hb => hb)

/-- C8 (amended).  The block-format reader raises
`FormatError(NoData)` exactly when zero blocks were produced — a
successful result is always a non-empty block sequence.  The classic
readers, however, perform no such check: a classic file whose dynamic
section is followed by zero frames is returned successfully as an empty
series, not as a `NoData` failure. -/
theorem c8_nodata :
    (∀ (lines : List String) (bs : List Block),
        DB.parse_block_ascii lines = .ok bs → bs ≠ [])
  ∧ DB.parse_block_ascii [] = .error .noData
  ∧ DB.parse_block_ascii ["no markers here at all"] = .error .noData
  ∧ DB.read_classic_fort10 ["1", "X", "0", "7", "2", "TIME    R", "0 0"] =
      some (.ok (⟨[("TIME", 0), ("R", 0)], 2⟩, []))
  ∧ DP.read_fort10_dynamic ["1", "X", "0", "7", "2", "TIME    R", "0 0"] =
      some (.ok (⟨[("TIME", 0), ("R", 0)], 2⟩, [])) :=
  ⟨fun lines bs h => (parse_block_ascii_ok lines bs h).1, by decide, by decide,
    by decide, by decide⟩

/-- C8 witness: the non-emptiness clause at a concrete one-block input. -/
theorem c8_nodata_witness :
    DB.parse_block_ascii ["step=1 time=1e-12", "1 2 3 4 5 6 7"] =
      .ok [⟨1, mkRat 1 1000000000000, [[1, 2, 3, 4, 5, 6, 7]]⟩]
  ∧ ([⟨1, mkRat 1 1000000000000, [[1, 2, 3, 4, 5, 6, 7]]⟩] : List Block) ≠ [] :=
  ⟨by decide, c8_nodata.1 ["step=1 time=1e-12", "1 2 3 4 5 6 7"]
    [⟨1, mkRat 1 1000000000000, [[1, 2, 3, 4, 5, 6, 7]]⟩] (by decide)⟩

/-- C8 counterexample.  A classic-dialect input with valid static and
dynamic headers but zero dynamic frames: `read_classic_fort10` returns a
successful empty result, not the `FormatError(NoData)` the claim asserts
for the classic reader. -/
theorem c8_classic_no_error_counterexample :
    DP.read_fort10_dynamic ["1", "X", "0", "9", "2", "TIME    R", "0 0"] =
      some (.ok (⟨[("TIME", 0), ("R", 0)], 2⟩, [])) := by decide

/-- C10 (confirmed).  Every block returned by `parse_block_ascii` holds at
least one data row: a marker whose block accumulates no valid 7-token row
before the next marker or end of stream is silently dropped, as the
concrete input with two consecutive markers shows — only the second
marker's block, with its one row, appears in the result. -/
theorem c10_blocks_nonempty :
    (∀ (lines : List String) (bs : List Block),
        DB.parse_block_ascii lines = .ok bs → ∀ b ∈ bs, b.rows ≠ [])
  ∧ DB.parse_block_ascii ["step=1 time=1e-12", "step=2 time=2e-12", "1 2 3 4 5 6 7"] =
      .ok [⟨2, mkRat 2 1000000000000, [[1, 2, 3, 4, 5, 6, 7]]⟩] :=
  ⟨fun lines bs h => (parse_block_ascii_ok lines bs h).2, by decide⟩

/-- C10 witness: the invariant applied to a concrete two-block parse. -/
theorem c10_blocks_nonempty_witness :
    DB.parse_block_ascii ["step=1 time=1e-12", "1 2 3 4 5 6 7"] =
      .ok [⟨1, mkRat 1 1000000000000, [[1, 2, 3, 4, 5, 6, 7]]⟩]
  ∧ ∀ b ∈ ([⟨1, mkRat 1 1000000000000, [[1, 2, 3, 4, 5, 6, 7]]⟩] : List Block),
      b.rows ≠ [] :=
  ⟨by decide, c10_blocks_nonempty.1 ["step=1 time=1e-12", "1 2 3 4 5 6 7"]
    [⟨1, mkRat 1 1000000000000, [[1, 2, 3, 4, 5, 6, 7]]⟩] (by decide)⟩

/-- C5 (confirmed).  Block accumulation: the claim's concrete input (marker
`step=1 time=1e-12`, 3 valid 7-token rows, marker `step=2 time=2e-12`, 2
valid rows) yields exactly 2 blocks with row counts [3, 2] and
(step, timeSeconds) pairs [(1, 1e-12), (2, 2e-12)]; and in general, for
each line of the stream: a new marker flushes the in-progress block and
opens a fresh one, a column-label line is ignored, a line of exactly 7
numeric tokens is appended as a row, any other line is ignored (also every
line seen before the first marker), and at end of stream a non-empty
in-progress block is flushed. -/
theorem c5_block_accumulation :
    DB.parse_block_ascii
      ["step=1 time=1e-12",
       "1 1 1 1 1 1 1", "2 2 2 2 2 2 2", "3 3 3 3 3 3 3",
       "step=2 time=2e-12",
       "4 4 4 4 4 4 4", "5 5 5 5 5 5 5"] =
      .ok [⟨1, mkRat 1 1000000000000, [[1,1,1,1,1,1,1],[2,2,2,2,2,2,2],[3,3,3,3,3,3,3]]⟩,
           ⟨2, mkRat 2 1000000000000, [[4,4,4,4,4,4,4],[5,5,5,5,5,5,5]]⟩]
  ∧ (∀ (st : List Block × Option Block) (line : String) (stepN : Nat) (timeTok : String) (t : ℚ),
        DB.blockStartSearch line = some (stepN, timeTok) → parseFloat? timeTok = some t →
        DB.pbLine st line = .ok (DB.flushCur st.1 st.2, some ⟨stepN, t, []⟩))
  ∧ (∀ (blocks : List Block) (b : Block) (line : String),
        DB.blockStartSearch line = none → DB.headerSearch line = true →
        DB.pbLine (blocks, some b) line = .ok (blocks, some b))
  ∧ (∀ (blocks : List Block) (b : Block) (line : String) (row : List ℚ),
        DB.blockStartSearch line = none → DB.headerSearch line = false →
        (splitWs (pyStrip line)).length = 7 →
        (splitWs (pyStrip line)).mapM parseFloat? = some row →
        DB.pbLine (blocks, some b) line = .ok (blocks, some { b with rows := b.rows ++ [row] }))
  ∧ (∀ (blocks : List Block) (b : Block) (line : String),
        DB.blockStartSearch line = none → DB.headerSearch line = false →
        ((splitWs (pyStrip line)).length ≠ 7 ∨ (splitWs (pyStrip line)).mapM parseFloat? = none) →
        DB.pbLine (blocks, some b) line = .ok (blocks, some b))
  ∧ (∀ (line : String) (st : List Block × Option Block), st.2 = none →
        DB.blockStartSearch line = none → DB.pbLine st line = .ok st)
  ∧ (∀ (lines : List String) (blocks : List Block) (b : Block),
        lines.foldlM DB.pbLine ([], none) = .ok (blocks, some b) → b.rows ≠ [] →
        DB.parse_block_ascii lines = .ok (blocks ++ [b])) := by
  refine ⟨by decide, ?_, ?_, ?_, ?_, ?_, ?_⟩
  · intro st line stepN timeTok t hbs hp
    unfold DB.pbLine
    simp [hbs, hp]
  · intro blocks b line hbs hh
    unfold DB.pbLine
    simp [hbs, hh]
  · intro blocks b line row hbs hh hl hm
    unfold DB.pbLine
    simp only [List.mapM] at hm
    simp [hbs, hh, hl, hm]
  · intro blocks b line hbs hh hother
    unfold DB.pbLine
    rcases hother with hl | hm
    · simp [hbs, hh, hl]
    · simp only [List.mapM] at hm
      rcases Nat.decEq (splitWs (pyStrip line)).length 7 with h7 | h7
      · simp [hbs, hh, h7, hm]
      · simp [hbs, hh, h7, hm]
  · intro line st hcur hbs
    unfold DB.pbLine
    simp [hbs, hcur]
  · intro lines blocks b hf hrows
    simp only [DB.parse_block_ascii, bind, Except.bind, hf]
    simp [DB.flushCur, hrows, pure, Except.pure]

/-- C5 witness: the marker clause at a concrete marker line. -/
theorem c5_block_accumulation_witness :
    DB.blockStartSearch "step=3 time=5e-12" = some (3, "5e-12")
  ∧ parseFloat? "5e-12" = some (mkRat 5 1000000000000)
  ∧ DB.pbLine ([], none) "step=3 time=5e-12" =
      .ok ([], some ⟨3, mkRat 5 1000000000000, []⟩) :=
  ⟨by decide, by decide,
    c5_block_accumulation.2.1 ([], none) "step=3 time=5e-12" 3 "5e-12"
      (mkRat 5 1000000000000) (by decide) (by decide)⟩

lemma db_compress_scalar (fuel : Nat) (name : String) (ns : List String) (ls : List Int)
    (items : List (String × Int)) (h : DB.compressAux fuel ns ls = .items items) :
    DB.compressAux (fuel + 1) (name :: ns) ((0 : Int) :: ls) = .items ((name, 0) :: items) := by
  simp [DB.compressAux, h]

lemma dp_compress_scalar (fuel : Nat) (name : String) (ns : List String) (ls : List Int)
    (items : List (String × Int)) (h : DP.compressAux fuel ns ls = some (.ok items)) :
    DP.compressAux (fuel + 1) (name :: ns) ((0 : Int) :: ls) =
      some (.ok ((name, 0) :: items)) := by
  simp [DP.compressAux, h]

lemma db_compress_array (fuel K : Nat) (name : String) (ns : List String) (ls : List Int)
    (items : List (String × Int)) (h : DB.compressAux fuel ns ls = .items items) :
    DB.compressAux (fuel + 1) (List.replicate (K + 1) name ++ ns)
      (List.replicate (K + 1) ((K + 1 : Nat) : Int) ++ ls)
      = .items ((name, ((K + 1 : Nat) : Int)) :: items) := by
  have e1 : List.replicate (K + 1) name ++ ns = name :: (List.replicate K name ++ ns) := by
    simp [List.replicate_succ]
  have e2 : List.replicate (K + 1) ((K + 1 : Nat) : Int) ++ ls
      = ((K + 1 : Nat) : Int) :: (List.replicate K ((K + 1 : Nat) : Int) ++ ls) := by
    simp [List.replicate_succ]
  rw [e1, e2]
  have h0 : ¬ ((K + 1 : Nat) : Int) = 0 := by exact_mod_cast Nat.succ_ne_zero K
  have hneg : ¬ ((K + 1 : Nat) : Int) < 0 := by omega
  have htake1 : (name :: (List.replicate K name ++ ns)).take (K + 1)
      = name :: List.replicate K name := by
    rw [List.take_succ_cons, List.take_left' (List.length_replicate K name)]
  have htake2 : ((((K + 1 : Nat) : Int)) :: (List.replicate K ((K + 1 : Nat) : Int) ++ ls)).take (K + 1)
      = ((K + 1 : Nat) : Int) :: List.replicate K ((K + 1 : Nat) : Int) := by
    rw [List.take_succ_cons, List.take_left' (List.length_replicate K _)]
  have hcond : (((K + 1 : Nat) : Int)).toNat ≤ (name :: (List.replicate K name ++ ns)).length
      ∧ (∀ x ∈ (name :: (List.replicate K name ++ ns)).take (((K + 1 : Nat) : Int)).toNat, x = name)
      ∧ (∀ v ∈ ((((K + 1 : Nat) : Int)) :: (List.replicate K ((K + 1 : Nat) : Int) ++ ls)).take
            (((K + 1 : Nat) : Int)).toNat, v = ((K + 1 : Nat) : Int)) := by
    refine ⟨?_, ?_, ?_⟩
    · simp
    · rw [Int.toNat_natCast, htake1]
      rintro x hx
      rcases List.mem_cons.mp hx with rfl | hx
      · rfl
      · exact List.eq_of_mem_replicate hx
    · rw [Int.toNat_natCast, htake2]
      rintro v hv
      rcases List.mem_cons.mp hv with rfl | hv
      · rfl
      · exact List.eq_of_mem_replicate hv
  have hdrop1 : (name :: (List.replicate K name ++ ns)).drop (K + 1) = ns := by
    rw [List.drop_succ_cons, List.drop_left' (List.length_replicate K name)]
  have hdrop2 : ((((K + 1 : Nat) : Int)) :: (List.replicate K ((K + 1 : Nat) : Int) ++ ls)).drop
      (K + 1) = ls := by
    rw [List.drop_succ_cons, List.drop_left' (List.length_replicate K _)]
  simp only [DB.compressAux]
  rw [if_neg h0, if_neg hneg, if_pos hcond]
  rw [Int.toNat_natCast, hdrop1, hdrop2, h]

lemma dp_compress_array (fuel K : Nat) (name : String) (ns : List String) (ls : List Int)
    (items : List (String × Int)) (h : DP.compressAux fuel ns ls = some (.ok items)) :
    DP.compressAux (fuel + 1) (List.replicate (K + 1) name ++ ns)
      (List.replicate (K + 1) ((K + 1 : Nat) : Int) ++ ls)
      = some (.ok ((name, ((K + 1 : Nat) : Int)) :: items)) := by
  have e1 : List.replicate (K + 1) name ++ ns = name :: (List.replicate K name ++ ns) := by
    simp [List.replicate_succ]
  have e2 : List.replicate (K + 1) ((K + 1 : Nat) : Int) ++ ls
      = ((K + 1 : Nat) : Int) :: (List.replicate K ((K + 1 : Nat) : Int) ++ ls) := by
    simp [List.replicate_succ]
  rw [e1, e2]
  have h0 : ¬ ((K + 1 : Nat) : Int) = 0 := by exact_mod_cast Nat.succ_ne_zero K
  have hneg : ¬ ((K + 1 : Nat) : Int) < 0 := by omega
  have htake1 : (name :: (List.replicate K name ++ ns)).take (K + 1)
      = name :: List.replicate K name := by
    rw [List.take_succ_cons, List.take_left' (List.length_replicate K name)]
  have htake2 : ((((K + 1 : Nat) : Int)) :: (List.replicate K ((K + 1 : Nat) : Int) ++ ls)).take (K + 1)
      = ((K + 1 : Nat) : Int) :: List.replicate K ((K + 1 : Nat) : Int) := by
    rw [List.take_succ_cons, List.take_left' (List.length_replicate K _)]
  have hlen : ¬ ¬ (((K + 1 : Nat) : Int)).toNat ≤ (name :: (List.replicate K name ++ ns)).length := by
    simp
  have hmm : ¬ ((∃ x ∈ (name :: (List.replicate K name ++ ns)).take (((K + 1 : Nat) : Int)).toNat,
        x ≠ name)
      ∨ (∃ v ∈ ((((K + 1 : Nat) : Int)) :: (List.replicate K ((K + 1 : Nat) : Int) ++ ls)).take
            (((K + 1 : Nat) : Int)).toNat, v ≠ ((K + 1 : Nat) : Int))) := by
    rw [Int.toNat_natCast, htake1, htake2]
    push_neg
    constructor
    · rintro x hx
      rcases List.mem_cons.mp hx with rfl | hx
      · rfl
      · exact List.eq_of_mem_replicate hx
    · rintro v hv
      rcases List.mem_cons.mp hv with rfl | hv
      · rfl
      · exact List.eq_of_mem_replicate hv
  have hdrop1 : (name :: (List.replicate K name ++ ns)).drop (K + 1) = ns := by
    rw [List.drop_succ_cons, List.drop_left' (List.length_replicate K name)]
  have hdrop2 : ((((K + 1 : Nat) : Int)) :: (List.replicate K ((K + 1 : Nat) : Int) ++ ls)).drop
      (K + 1) = ls := by
    rw [List.drop_succ_cons, List.drop_left' (List.length_replicate K _)]
  simp only [DP.compressAux]
  rw [if_neg h0, if_neg hneg, if_neg hlen, if_neg hmm]
  rw [Int.toNat_natCast, hdrop1, hdrop2, h]

/-- A header's parallel (name, length-code) lists form a consistent
run-length encoding: walking left to right, a zero length code is one
scalar, and a nonzero code `L > 0` begins a run of exactly `L` copies of
the same name all carrying the code `L`. -/
inductive Consistent : List String → List Int → Prop
  | nil : Consistent [] []
  | scalar (name : String) {ns : List String} {ls : List Int} :
      Consistent ns ls → Consistent (name :: ns) ((0 : Int) :: ls)
  | array (name : String) (L : Nat) (hL : 0 < L) {ns : List String} {ls : List Int} :
      Consistent ns ls →
      Consistent (List.replicate L name ++ ns) (List.replicate L (L : Int) ++ ls)

lemma consistent_length {names : List String} {lens : List Int}
    (h : Consistent names lens) : names.length = lens.length := by
  induction h with
  | nil => rfl
  | scalar name _ ih => simpa using ih
  | array name L hL _ ih => simp [ih]

lemma consistent_compress {names : List String} {lens : List Int}
    (h : Consistent names lens) : ∀ fuel : Nat, names.length < fuel →
    ∃ items, DB.compressAux fuel names lens = .items items
      ∧ DP.compressAux fuel names lens = some (.ok items)
      ∧ totalValues items = (names.length : Int) := by
  induction h with
  | nil =>
    intro fuel hfuel
    obtain ⟨f, rfl⟩ : ∃ f, fuel = f + 1 := ⟨fuel - 1, by omega⟩
    exact ⟨[], by simp [DB.compressAux], by simp [DP.compressAux], by simp [totalValues]⟩
  | scalar name hc ih =>
    intro fuel hfuel
    obtain ⟨f, rfl⟩ : ∃ f, fuel = f + 1 := ⟨fuel - 1, by omega⟩
    simp only [List.length_cons] at hfuel
    obtain ⟨items, hdb, hdp, htot⟩ := ih f (by omega)
    refine ⟨(name, 0) :: items, db_compress_scalar f name _ _ items hdb,
      dp_compress_scalar f name _ _ items hdp, ?_⟩
    simp [totalValues] at htot ⊢
    omega
  | array name L hL hc ih =>
    intro fuel hfuel
    obtain ⟨f, rfl⟩ : ∃ f, fuel = f + 1 := ⟨fuel - 1, by omega⟩
    obtain ⟨K, rfl⟩ : ∃ K, L = K + 1 := ⟨L - 1, by omega⟩
    simp only [List.length_append, List.length_replicate] at hfuel
    obtain ⟨items, hdb, hdp, htot⟩ := ih f (by omega)
    refine ⟨(name, ((K + 1 : Nat) : Int)) :: items,
      db_compress_array f K name _ _ items hdb,
      dp_compress_array f K name _ _ items hdp, ?_⟩
    simp only [totalValues, List.map_cons, List.sum_cons] at htot ⊢
    have hK : ¬ ((K + 1 : Nat) : Int) = 0 := by exact_mod_cast Nat.succ_ne_zero K
    rw [if_neg hK]
    simp only [List.length_append, List.length_replicate]
    push_cast
    omega

/-- C6 (confirmed).  For every header whose (name, length) lists form a
consistent run-length encoding, both decoders compress it to the same
directory, and the sum of the emitted descriptor counts
(`totalScalarSlots`, 1 per scalar and `L` per array) equals the declared
element count `n` — the number of (name, length) pairs. -/
theorem c6_directory_total {names : List String} {lens : List Int}
    (h : Consistent names lens) :
    ∃ items, DB.headerItems names lens = some items
      ∧ DP.headerItems names lens = some (.ok items)
      ∧ totalValues items = (names.length : Int) := by
  obtain ⟨items, hdb, hdp, htot⟩ := consistent_compress h (names.length + 1) (by omega)
  exact ⟨items, by simp [DB.headerItems, hdb], by simp [DP.headerItems, hdp], htot⟩

/-- C6 witness: the invariant at the concrete consistent header
`names = [TIME, R, R]`, `lens = [0, 2, 2]` (declared count 3). -/
theorem c6_directory_total_witness :
    Consistent ["TIME", "R", "R"] [0, 2, 2]
  ∧ ∃ items, DB.headerItems ["TIME", "R", "R"] [0, 2, 2] = some items
      ∧ DP.headerItems ["TIME", "R", "R"] [0, 2, 2] = some (.ok items)
      ∧ totalValues items = ((["TIME", "R", "R"] : List String).length : Int) :=
  have hc : Consistent ["TIME", "R", "R"] [0, 2, 2] :=
    Consistent.scalar "TIME" (Consistent.array "R" 2 (by omega) Consistent.nil)
  ⟨hc, c6_directory_total hc⟩

/-- C2 (amended).  Walking the n parallel (name, length) pairs left to
right: a pair with length 0 yields one scalar descriptor and advances by
1, and a length `L > 0` whose next `L` names all equal `name[i]` and whose
next `L` length codes all equal `L` yields the single array descriptor
`(name, L)` and advances by `L` — in both decoders.  On an inconsistent
run the two decoders differ: density_block.py's decoder does not fail and
falls back to one descriptor per (name, length) pair unchanged
(`zip(names, lens)`), while density_plot.py's decoder fails with
`ValueError` (`FormatError(HeaderMismatch)`), as the concrete header
`names = [A, B]`, `lens = [2, 2]` shows. -/
theorem c2_header_compression :
    (∀ (fuel : Nat) (name : String) (ns : List String) (ls : List Int)
        (items : List (String × Int)),
        DB.compressAux fuel ns ls = .items items →
        DB.compressAux (fuel + 1) (name :: ns) ((0 : Int) :: ls) = .items ((name, 0) :: items))
  ∧ (∀ (fuel : Nat) (name : String) (ns : List String) (ls : List Int)
        (items : List (String × Int)),
        DP.compressAux fuel ns ls = some (.ok items) →
        DP.compressAux (fuel + 1) (name :: ns) ((0 : Int) :: ls) =
          some (.ok ((name, 0) :: items)))
  ∧ (∀ (fuel L : Nat) (name : String) (ns : List String) (ls : List Int)
        (items : List (String × Int)), 0 < L →
        DB.compressAux fuel ns ls = .items items →
        DB.compressAux (fuel + 1) (List.replicate L name ++ ns)
          (List.replicate L (L : Int) ++ ls) = .items ((name, (L : Int)) :: items))
  ∧ (∀ (fuel L : Nat) (name : String) (ns : List String) (ls : List Int)
        (items : List (String × Int)), 0 < L →
        DP.compressAux fuel ns ls = some (.ok items) →
        DP.compressAux (fuel + 1) (List.replicate L name ++ ns)
          (List.replicate L (L : Int) ++ ls) = some (.ok ((name, (L : Int)) :: items)))
  ∧ (∀ (names : List String) (lens : List Int),
        DB.compressAux (names.length + 1) names lens = .bad →
        DB.headerItems names lens = some (names.zip lens))
  ∧ DB.compressAux 3 ["A", "B"] [2, 2] = .bad
  ∧ DB.headerItems ["A", "B"] [2, 2] = some [("A", 2), ("B", 2)]
  ∧ DP.headerItems ["A", "B"] [2, 2] = some (.error .headerMismatch) := by
  refine ⟨db_compress_scalar, dp_compress_scalar, ?_, ?_, ?_, by decide, by decide, by decide⟩
  · intro fuel L name ns ls items hL h
    obtain ⟨K, rfl⟩ : ∃ K, L = K + 1 := ⟨L - 1, by omega⟩
    exact db_compress_array fuel K name ns ls items h
  · intro fuel L name ns ls items hL h
    obtain ⟨K, rfl⟩ : ∃ K, L = K + 1 := ⟨L - 1, by omega⟩
    exact dp_compress_array fuel K name ns ls items h
  · intro names lens hbad
    simp [DB.headerItems, hbad]

/-- C2 witness: the scalar clause at a concrete one-pair header. -/
theorem c2_header_compression_witness :
    DB.compressAux 1 [] [] = .items []
  ∧ DB.compressAux 2 ["X"] [(0 : Int)] = .items [("X", 0)] :=
  ⟨by decide, c2_header_compression.1 1 "X" [] [] [] (by decide)⟩

/-- C2 counterexample.  On the inconsistent header `names = [A, B]`,
`lens = [2, 2]` (the declared run for `A` is not two copies of `A`),
density_plot.py's `_read_section_header` fails with
`ValueError("Malformed array descriptor")` instead of falling back — the
claim's "the decoder does not fail" is false for that decoder. -/
theorem c2_dp_failure_counterexample :
    DP.headerItems ["A", "B"] [2, 2] = some (.error .headerMismatch) := by decide

lemma argminAux_spec : ∀ (xs l : List ℚ) (i : Nat) (b : Nat × ℚ),
    xs = l.drop i → b.1 < i → b.1 < l.length → l.getD b.1 0 = b.2 →
    (∀ k, k < i → k < l.length → b.2 ≤ l.getD k 0) →
    (∀ k, k < b.1 → b.2 < l.getD k 0) →
    argminAux b i xs < l.length
    ∧ (∀ k, k < l.length → l.getD (argminAux b i xs) 0 ≤ l.getD k 0)
    ∧ (∀ k, k < argminAux b i xs → l.getD (argminAux b i xs) 0 < l.getD k 0) := by
  intro xs
  induction xs with
  | nil =>
    intro l i b hdrop hbi hbl hbv hmin hstrict
    have hle : l.length ≤ i := by
      by_contra hlt
      push_neg at hlt
      have hne := List.drop_eq_nil_iff.mp hdrop.symm
      omega
    simp only [argminAux]
    refine ⟨hbl, ?_, ?_⟩
    · intro k hk
      rw [hbv]
      exact hmin k (by omega) hk
    · intro k hk
      rw [hbv]
      exact hstrict k hk
  | cons x xs ih =>
    intro l i b hdrop hbi hbl hbv hmin hstrict
    have hi : i < l.length := by
      by_contra hge
      push_neg at hge
      rw [List.drop_eq_nil_of_le hge] at hdrop
      cases hdrop
    have h1 : (l.drop i)[0]? = some x := by rw [← hdrop]; simp
    rw [List.getElem?_drop] at h1
    simp only [Nat.add_zero] at h1
    have hgetI : l.getD i 0 = x := by
      rw [List.getD_eq_getElem l 0 (by omega : i < l.length)]
      have h2 := List.getElem?_eq_getElem (l := l) (n := i) (by omega : i < l.length)
      exact Option.some.inj (h2.symm.trans h1)
    have hdrop' : xs = l.drop (i + 1) := by
      have ht := List.tail_drop l i
      rw [← hdrop] at ht
      simpa using ht
    by_cases hx : x < b.2
    · simp only [argminAux, if_pos hx]
      apply ih l (i + 1) (i, x) hdrop' (by omega) hi hgetI
      · intro k hk hkl
        rcases Nat.lt_succ_iff_lt_or_eq.mp hk with hk | rfl
        · exact le_of_lt (lt_of_lt_of_le hx (hmin k hk hkl))
        · exact le_of_eq hgetI.symm
      · intro k hk
        exact lt_of_lt_of_le hx (hmin k (by omega) (by omega))
    · push_neg at hx
      simp only [argminAux, if_neg (not_lt.mpr hx)]
      apply ih l (i + 1) b hdrop' (by omega) hbl hbv
      · intro k hk hkl
        rcases Nat.lt_succ_iff_lt_or_eq.mp hk with hk | rfl
        · exact hmin k hk hkl
        · rw [hgetI]; exact hx
      · exact hstrict

lemma argminList_spec (x : ℚ) (xs : List ℚ) :
    argminList (x :: xs) < (x :: xs).length
    ∧ (∀ k, k < (x :: xs).length →
        (x :: xs).getD (argminList (x :: xs)) 0 ≤ (x :: xs).getD k 0)
    ∧ (∀ k, k < argminList (x :: xs) →
        (x :: xs).getD (argminList (x :: xs)) 0 < (x :: xs).getD k 0) := by
  simp only [argminList]
  apply argminAux_spec xs (x :: xs) 1 (0, x) rfl (by omega) (by simp) rfl
  · intro k hk _
    interval_cases k
    simp
  · intro k hk
    exact absurd hk (Nat.not_lt_zero k)

set_option maxHeartbeats 2000000 in
/-- C3 (confirmed).  Frame selection policy of `pick_block` on a non-empty
block sequence: an explicit frame index is clamped into `[0, count-1]` and
returned, taking precedence over any `time_ps` argument (so -5 selects 0
and an index ≥ count selects count-1); otherwise a given `time_ps` is
converted to seconds (×1e-12) and the index with the minimum absolute
time difference is returned, ties resolved by the lowest index; otherwise
the last index is returned. -/
theorem c3_pick_block_policy (blocks : List Block) (hne : blocks ≠ []) :
    (∀ (f : Int) (tps : Option ℚ), ∃ i : Nat,
        DB.pick_block blocks (some f) tps = some (blocks.getD i ⟨0, 0, []⟩, i)
        ∧ i < blocks.length
        ∧ (f < 0 → i = 0)
        ∧ (0 ≤ f → f < (blocks.length : Int) → (i : Int) = f)
        ∧ ((blocks.length : Int) ≤ f → i = blocks.length - 1))
  ∧ (∀ tps : ℚ, ∃ i : Nat,
        DB.pick_block blocks none (some tps) = some (blocks.getD i ⟨0, 0, []⟩, i)
        ∧ i < blocks.length
        ∧ (∀ k, k < blocks.length →
            (blocks.map (fun b => |b.time_s - tps * mkRat 1 1000000000000|)).getD i 0
              ≤ (blocks.map (fun b => |b.time_s - tps * mkRat 1 1000000000000|)).getD k 0)
        ∧ (∀ k, k < i →
            (blocks.map (fun b => |b.time_s - tps * mkRat 1 1000000000000|)).getD i 0
              < (blocks.map (fun b => |b.time_s - tps * mkRat 1 1000000000000|)).getD k 0))
  ∧ DB.pick_block blocks none none =
      some (blocks.getD (blocks.length - 1) ⟨0, 0, []⟩, blocks.length - 1) := by
  obtain ⟨b0, bs, rfl⟩ := List.exists_cons_of_ne_nil hne
  refine ⟨?_, ?_, rfl⟩
  · intro f tps
    refine ⟨(min (max f 0) (((b0 :: bs).length : Int) - 1)).toNat, rfl, ?_, ?_, ?_, ?_⟩
    · simp only [List.length_cons]
      omega
    · intro hf
      simp only [List.length_cons]
      omega
    · intro hf1 hf2
      simp only [List.length_cons] at *
      omega
    · intro hf
      simp only [List.length_cons] at *
      omega
  · intro tps
    obtain ⟨h1, h2, h3⟩ := argminList_spec
      ((fun b => |b.time_s - tps * mkRat 1 1000000000000|) b0)
      (bs.map (fun b => |b.time_s - tps * mkRat 1 1000000000000|))
    refine ⟨argminList ((b0 :: bs).map (fun b => |b.time_s - tps * mkRat 1 1000000000000|)),
      ?_, ?_, ?_, ?_⟩
    · rw [DB.pick_block.eq_def]
    · simpa using h1
    · intro k hk
      exact h2 k (by simpa using hk)
    · intro k hk
      exact h3 k hk

set_option maxHeartbeats 1000000 in
/-- C3 witness: clamping at the claim's concrete inputs — a 10-block
sequence with `frame = -5` selects index 0 and with `frame = 50` selects
index 9. -/
theorem c3_pick_block_witness :
    (List.replicate 10 (⟨0, 0, []⟩ : Block)) ≠ []
  ∧ DB.pick_block (List.replicate 10 ⟨0, 0, []⟩) (some (-5)) none = some (⟨0, 0, []⟩, 0)
  ∧ DB.pick_block (List.replicate 10 ⟨0, 0, []⟩) (some 50) none = some (⟨0, 0, []⟩, 9) := by
  have h := c3_pick_block_policy (List.replicate 10 ⟨0, 0, []⟩) (by decide)
  obtain ⟨i, hi, _, hneg, _, _⟩ := h.1 (-5) none
  obtain ⟨j, hj, _, _, _, hge⟩ := h.1 50 none
  have hi0 : i = 0 := hneg (by decide)
  have hj9 : j = 9 := by
    have h9 := hge (by decide)
    simpa using h9
  subst hi0
  subst hj9
  exact ⟨by decide, hi.trans (by decide), hj.trans (by decide)⟩
